import Mathlib

/-!
Verification development for the minimal distributed lazy-evaluation dataframe
engine described in this repository's design specification.  The repository's
own source is a Jupyter notebook of calls into an external library; the
components below (Task Graph Builder, Scheduler/Executor, Result Aggregator,
Client Façade, Partition Store) are therefore modelled from the specification's
component design, and the testable properties of the specification are settled
against these models.
-/

namespace DaskSpec

/-- Modelled from the spec: the error taxonomy of section 7 (the notebook
contains no implementation of it).  SchemaInferenceError, UnsupportedOperationError,
WorkerFailureError, GraphConstructionError. -/
inductive Err where
  | schemaInferenceError
  | unsupportedOperationError
  | workerFailureError
  | graphConstructionError
  deriving DecidableEq, Repr

/-- Modelled from the spec: the canonical serialization of an operation together
with the fingerprints of its inputs.  The fingerprint of a task is modelled as
this canonical tree itself, i.e. the hash is taken to be collision-free
(content addressing by hash-consing, as section 9 suggests).  Operations have
zero, one or two inputs in this model. -/
inductive FingerTree where
  | atom (op : String)
  | app1 (op : String) (a : FingerTree)
  | app2 (op : String) (a b : FingerTree)
  deriving DecidableEq, Repr

/-- Modelled from the spec: all tasks the given task (transitively) depends on,
itself included -- the "ancestors" of a computation target. -/
def FingerTree.ancestorsOf : FingerTree → List FingerTree
  | .atom op => [.atom op]
  | .app1 op a => .app1 op a :: a.ancestorsOf
  | .app2 op a b => .app2 op a b :: (a.ancestorsOf ++ b.ancestorsOf)

/-- Modelled from the spec: one combined computation call over a set of targets.
The task graphs of all targets are merged, so each distinct task of the merged
graph is dispatched (executed) exactly once; the result is the list of task
executions performed by the call. -/
def combinedComputeExecs (targets : List FingerTree) : List FingerTree :=
  (targets.flatMap FingerTree.ancestorsOf).dedup

/-- Modelled from the spec: a single independent compute call on one target;
its graph-merging context is local to the call and discarded afterwards. -/
def singleComputeExecs (target : FingerTree) : List FingerTree :=
  combinedComputeExecs [target]

/-- How many times a given task is executed in an execution list. -/
def execCount (execs : List FingerTree) (t : FingerTree) : Nat :=
  execs.count t

/-- Modelled from the spec: a Task of the Graph -- fingerprint, operation
descriptor, and the fingerprints of its inputs. -/
structure Task where
  fp : FingerTree
  op : String
  inputs : List FingerTree
  deriving DecidableEq, Repr

/-- Modelled from the spec: a dataframe / task handle held by the client.  It
records the task's fingerprint and the epoch of the Graph it was created in;
the epoch changes when the client is restarted, expiring old handles. -/
structure Handle where
  fp : FingerTree
  epoch : Nat
  deriving DecidableEq, Repr

/-- Modelled from the spec: the Task Graph Builder state -- the set of live
tasks and the current epoch (incremented by a client restart, which drops all
cluster-resident state). -/
structure Builder where
  graph : List Task
  epoch : Nat
  deriving DecidableEq, Repr

/-- Fingerprint of an operation applied to the given input fingerprints:
the canonical serialization of the operation together with the inputs'
fingerprints. -/
def mkFingerprint (op : String) : List FingerTree → FingerTree
  | [] => .atom op
  | [a] => .app1 op a
  | [a, b] => .app2 op a b
  | a :: b :: c :: rest => .app2 op a (mkFingerprint op (b :: c :: rest))

/-- Modelled from the spec: `apply(operation, inputs) -> TaskHandle` of the
Task Graph Builder.  Fails with GraphConstructionError when an input handle
comes from an expired Graph (a different epoch); otherwise computes the
fingerprint from the canonical serialization of the operation and the inputs'
fingerprints, and if a Task with that fingerprint already exists in the
current Graph returns the existing handle, else records a new Task. -/
def Builder.applyOp (b : Builder) (op : String) (inputs : List Handle) :
    Except Err (Handle × Builder) :=
  if inputs.any (fun h => decide (h.epoch ≠ b.epoch)) then
    .error .graphConstructionError
  else
    match b.graph.find? (fun t => decide (t.fp = mkFingerprint op (inputs.map Handle.fp))) with
    | some t => .ok (⟨t.fp, b.epoch⟩, b)
    | none =>
        .ok (⟨mkFingerprint op (inputs.map Handle.fp), b.epoch⟩,
          { b with graph :=
              ⟨mkFingerprint op (inputs.map Handle.fp), op, inputs.map Handle.fp⟩ :: b.graph })

/-- Modelled from the spec: restarting the client drops all cluster-resident
state and expires every handle built against the old Graph. -/
def Builder.restartClient (b : Builder) : Builder :=
  { graph := [], epoch := b.epoch + 1 }

/-- A distributed dataframe: a list of partitions, each an independently
materializable chunk of rows. -/
abbrev DaskDF (α : Type) : Type := List (List α)

/-- Total number of rows of a distributed dataframe: the per-partition counts
are computed locally and the sub-results aggregated, as `len(df)` does. -/
def countRows (df : DaskDF α) : Nat := (df.map List.length).sum

/-- Modelled from the spec: split a row list into exactly `n` chunks (the
chunks concatenate back to the input; sizes are balanced by integer division). -/
def chunkInto : Nat → List α → List (List α)
  | 0, _ => []
  | 1, xs => [xs]
  | n + 2, xs =>
      xs.take (xs.length / (n + 2)) :: chunkInto (n + 1) (xs.drop (xs.length / (n + 2)))

/-- Modelled from the spec: `repartition(npartitions=n)` redistributes the same
rows over `n` partitions. -/
def repartitionDf (n : Nat) (df : DaskDF α) : DaskDF α :=
  chunkInto n df.flatten

/-- A positional (`iloc`) selection: either a row-wise positional slice (such
as `iloc[0:10]`) or a column slice applied to all rows (such as
`iloc[:, 0:10]`). -/
inductive IlocSel where
  | rowSlice (lo hi : Nat)
  | colSlice (lo hi : Nat)
  deriving DecidableEq, Repr

/-- Modelled from the spec: the Client Façade rejects operations that are
structurally undefined in a partitioned, order-agnostic model.  Row-wise
positional slicing across multiple partitions fails with
UnsupportedOperationError because global row order is not tracked once data is
distributed; a column slice applied to all rows succeeds partition-locally. -/
def ilocSelect (df : DaskDF (List α)) : IlocSel → Except Err (DaskDF (List α))
  | .rowSlice lo hi =>
      if df.length ≤ 1 then .ok [(df.flatten.drop lo).take (hi - lo)]
      else .error .unsupportedOperationError
  | .colSlice lo hi =>
      .ok (df.map (fun part => part.map (fun row => (row.drop lo).take (hi - lo))))

/-- Modelled from the spec: a groupby-max aggregation over keyed rows.  All
partitions contribute their rows; for each distinct key (in first-appearance
order) the maximum of the associated values is returned, as a single
result table. -/
def groupbyMax {K : Type} [DecidableEq K] (df : DaskDF (K × Nat)) : List (K × Nat) :=
  let rows := df.flatten
  ((rows.map Prod.fst).dedup).map
    (fun k => (k, ((rows.filter (fun r => decide (r.1 = k))).map Prod.snd).foldl max 0))

/-- Modelled from the spec: the same groupby-max aggregation with
`split_out = n`: the aggregation result is split over `n` output partitions. -/
def groupbyMaxSplitOut {K : Type} [DecidableEq K] (n : Nat) (df : DaskDF (K × Nat)) :
    DaskDF (K × Nat) :=
  chunkInto n (groupbyMax df)

/-- A declared or inferred column type. -/
inductive ColType where
  | intT
  | strT
  deriving DecidableEq, Repr

/-- A computed (typed) cell value. -/
inductive CellVal where
  | intV (n : Nat)
  | strV (s : String)
  deriving DecidableEq, Repr

/-- Whether a raw CSV cell parses as an integer. -/
def isIntCell (s : String) : Bool :=
  s.length > 0 && s.toList.all Char.isDigit

/-- Modelled from the spec: column-type inference reads only a sample from the
beginning of the data; if every sampled cell parses as an integer the column
type is inferred to be integer, else string. -/
def inferColType (sampleSize : Nat) (col : List String) : ColType :=
  if (col.take sampleSize).all isIntCell then .intT else .strT

/-- A lazily loaded column: the inferred (enforced) type together with the raw,
unvalidated cells. -/
structure LazyCol where
  colT : ColType
  cells : List String
  deriving DecidableEq, Repr

/-- Modelled from the spec: loading a CSV column infers the type from the
sample and records the raw cells; no validation of the full data happens at
load time (loading is lazy), so a schema mismatch is not detected here. -/
def readCsvCol (sampleSize : Nat) (col : List String) : LazyCol :=
  { colT := inferColType sampleSize col, cells := col }

/-- Parse one raw cell at the enforced column type; a cell that does not match
the type surfaces a SchemaInferenceError. -/
def parseCell (t : ColType) (s : String) : Except Err CellVal :=
  match t with
  | .intT => if isIntCell s then .ok (.intV (s.toNat?.getD 0)) else .error .schemaInferenceError
  | .strT => .ok (.strV s)

/-- Parse a whole column at the enforced type, failing on the first mismatched
cell. -/
def parseAll (t : ColType) : List String → Except Err (List CellVal)
  | [] => .ok []
  | c :: cs =>
      match parseCell t c with
      | .error e => .error e
      | .ok v =>
          match parseAll t cs with
          | .error e => .error e
          | .ok vs => .ok (v :: vs)

/-- Modelled from the spec: computing a loaded column materializes every cell
at the enforced type -- this is where a mismatch between the sampled types and
the full dataset surfaces, as a downstream type error. -/
def computeCol (lc : LazyCol) : Except Err (List CellVal) :=
  parseAll lc.colT lc.cells

/-- One task execution recorded by the scheduler: materializing an input, or
one attempt at the target task on a given worker. -/
inductive TaskExec where
  | inputExec (id : Nat)
  | targetAttempt (worker : Nat)
  deriving DecidableEq, Repr

/-- Modelled from the spec: the retry loop of the Scheduler/Executor.  Each
attempt runs on a fresh worker; a worker failure mid-task reschedules the task
on the next worker while `retriesLeft` remain; exceeding the retry budget
surfaces WorkerFailureError.  Returns the workers tried and the outcome. -/
def runAttempts (failures retriesLeft worker : Nat) (res : Nat) :
    List Nat × Except Err Nat :=
  match failures, retriesLeft with
  | 0, _ => ([worker], .ok res)
  | _ + 1, 0 => ([worker], .error .workerFailureError)
  | f + 1, r + 1 =>
      let rest := runAttempts f r (worker + 1) res
      (worker :: rest.1, rest.2)

/-- Modelled from the spec: `compute(target)` for a target task whose inputs
are already materialized.  The inputs are each executed exactly once; the
target task is attempted with the given number of worker failures against the
retry budget.  Returns the execution log and the outcome; an error outcome
carries no partial results. -/
def schedCompute (retryLimit : Nat) (inputVals : List Nat) (failures : Nat) :
    List TaskExec × Except Err Nat :=
  let attempts := runAttempts failures retryLimit 0 inputVals.sum
  ((List.range inputVals.length).map TaskExec.inputExec
      ++ attempts.1.map TaskExec.targetAttempt,
    attempts.2)

/-- Modelled from the spec: a partition-local partial result of the Result
Aggregator -- local count, local sum and local sum of squares, which together
determine mean (sum/count) and std (from sum, sum of squares and count). -/
structure Moments where
  count : ℚ
  total : ℚ
  totalSq : ℚ
  deriving DecidableEq, Repr

/-- Modelled from the spec: the combiner of the Result Aggregator adds the
partial counts, sums and sums of squares componentwise. -/
def Moments.combine (p q : Moments) : Moments :=
  ⟨p.count + q.count, p.total + q.total, p.totalSq + q.totalSq⟩

/-- The neutral partial result (empty partition). -/
def Moments.zero : Moments := ⟨0, 0, 0⟩

/-- Modelled from the spec: combine all partition-local partial results into a
single global value. -/
def aggregateMoments (partials : List Moments) : Moments :=
  partials.foldl Moments.combine Moments.zero

/-- Mean of an aggregated partial result: global sum over global count. -/
def Moments.meanOf (p : Moments) : ℚ := p.total / p.count

/-- Variance of an aggregated partial result, computed from sum, sum of
squares and count; std is its square root and is therefore determined by the
same triple. -/
def Moments.varOf (p : Moments) : ℚ :=
  p.totalSq / p.count - (p.total / p.count) ^ 2

/-- Materialization state of a partition: lazy, or resident in cluster memory. -/
inductive MatState where
  | lazyP
  | residentP
  deriving DecidableEq, Repr

/-- A dataframe handle whose partitions carry a materialization state. -/
structure PartDF (α : Type) where
  parts : List (List α × MatState)
  deriving DecidableEq, Repr

/-- Modelled from the spec: `persist` pins every partition in distributed
memory (marks it resident) without changing its rows. -/
def PartDF.persistDf (df : PartDF α) : PartDF α :=
  ⟨df.parts.map (fun pr => (pr.1, MatState.residentP))⟩

/-- Materialize the full contents of a dataframe handle (`compute`). -/
def PartDF.computeDf (df : PartDF α) : List α :=
  (df.parts.map Prod.fst).flatten

/-- The first `n` rows of a dataframe handle (`head`). -/
def PartDF.headDf (n : Nat) (df : PartDF α) : List α :=
  df.computeDf.take n

/-- A reduction over a dataframe handle (sum of a numeric column). -/
def PartDF.sumDf (df : PartDF ℚ) : ℚ :=
  df.computeDf.sum

/-- The notebook's example dataset: 3 CSV files of 100 rows each, loaded with
one partition per file. -/
def csv300 : DaskDF Nat :=
  List.replicate 3 (List.replicate 100 0)

/-- The worker an execution-log entry ran on, when the entry is an attempt at
the target task. -/
def workerOf : TaskExec → Option Nat
  | .targetAttempt w => some w
  | .inputExec _ => none

theorem mem_combinedComputeExecs {targets : List FingerTree} {t : FingerTree} :
    t ∈ combinedComputeExecs targets ↔ ∃ a ∈ targets, t ∈ a.ancestorsOf := by
  simp [combinedComputeExecs, List.mem_dedup]

theorem execCount_combined_of_mem {targets : List FingerTree} {t : FingerTree}
    (h : ∃ a ∈ targets, t ∈ a.ancestorsOf) :
    execCount (combinedComputeExecs targets) t = 1 := by
  apply List.count_eq_one_of_mem (List.nodup_dedup _)
  exact mem_combinedComputeExecs.mpr h

/-- C1: a task that is a shared ancestor of both targets of one combined
computation call executes exactly once there; across two separate sequential
compute calls it executes once per call, twice in total. -/
theorem shared_ancestor_exec_once (a b t : FingerTree)
    (ha : t ∈ a.ancestorsOf) (hb : t ∈ b.ancestorsOf) :
    execCount (combinedComputeExecs [a, b]) t = 1 ∧
    execCount (singleComputeExecs a) t + execCount (singleComputeExecs b) t = 2 := by
  refine ⟨execCount_combined_of_mem ⟨a, by simp, ha⟩, ?_⟩
  rw [singleComputeExecs, singleComputeExecs,
    execCount_combined_of_mem ⟨a, by simp, ha⟩,
    execCount_combined_of_mem ⟨b, by simp, hb⟩]

/-- Witness for C1 at the notebook's scenario: mean and std of the departure
delay share the read and the cancelled-flights filter as ancestors. -/
theorem shared_ancestor_exec_once_witness :
    FingerTree.app1 "filter_cancelled" (.atom "read_csv") ∈
      (FingerTree.app1 "mean" (.app1 "filter_cancelled" (.atom "read_csv"))).ancestorsOf ∧
    FingerTree.app1 "filter_cancelled" (.atom "read_csv") ∈
      (FingerTree.app1 "std" (.app1 "filter_cancelled" (.atom "read_csv"))).ancestorsOf ∧
    execCount
      (combinedComputeExecs
        [FingerTree.app1 "mean" (.app1 "filter_cancelled" (.atom "read_csv")),
         FingerTree.app1 "std" (.app1 "filter_cancelled" (.atom "read_csv"))])
      (FingerTree.app1 "filter_cancelled" (.atom "read_csv")) = 1 ∧
    execCount
        (singleComputeExecs
          (FingerTree.app1 "mean" (.app1 "filter_cancelled" (.atom "read_csv"))))
        (FingerTree.app1 "filter_cancelled" (.atom "read_csv"))
      + execCount
          (singleComputeExecs
            (FingerTree.app1 "std" (.app1 "filter_cancelled" (.atom "read_csv"))))
          (FingerTree.app1 "filter_cancelled" (.atom "read_csv")) = 2 := by
  refine ⟨by decide, by decide, ?_, ?_⟩
  · exact (shared_ancestor_exec_once _ _ _ (by decide) (by decide)).1
  · exact (shared_ancestor_exec_once _ _ _ (by decide) (by decide)).2

theorem flatten_chunkInto {α : Type} :
    ∀ (n : Nat) (xs : List α), (chunkInto (n + 1) xs).flatten = xs
  | 0, xs => by simp [chunkInto]
  | n + 1, xs => by
      rw [show n + 1 + 1 = n + 2 from rfl, chunkInto, List.flatten_cons,
        flatten_chunkInto n, List.take_append_drop]

theorem length_chunkInto {α : Type} :
    ∀ (n : Nat) (xs : List α), (chunkInto n xs).length = n
  | 0, _ => rfl
  | 1, _ => rfl
  | n + 2, xs => by
      rw [chunkInto, List.length_cons, length_chunkInto (n + 1)]

/-- C3: repartitioning to `n ≥ 1` partitions preserves the total row count. -/
theorem repartition_preserves_count {α : Type} (n : Nat) (df : DaskDF α)
    (hn : 1 ≤ n) :
    countRows (repartitionDf n df) = countRows df := by
  cases n with
  | zero => exact absurd hn (by decide)
  | succ m =>
      rw [countRows, countRows, ← List.length_flatten, ← List.length_flatten,
        repartitionDf, flatten_chunkInto m df.flatten]

/-- Witness for C3 at the notebook's scenario: 3 CSV files of 100 rows each;
`len(df)` is 300 before repartitioning and after repartitioning to 1, 3 or 8
partitions. -/
theorem repartition_preserves_count_witness :
    countRows csv300 = 300 ∧
    countRows (repartitionDf 1 csv300) = 300 ∧
    countRows (repartitionDf 3 csv300) = 300 ∧
    countRows (repartitionDf 8 csv300) = 300 :=
  ⟨by decide,
   (repartition_preserves_count 1 csv300 (by decide)).trans (by decide),
   (repartition_preserves_count 3 csv300 (by decide)).trans (by decide),
   (repartition_preserves_count 8 csv300 (by decide)).trans (by decide)⟩

/-- C5: a groupby-max aggregation with `split_out = 4` produces exactly 4
output partitions, and their concatenation is exactly the single-partition
result of the same aggregation. -/
theorem groupby_splitOut_partitions {K : Type} [DecidableEq K] (df : DaskDF (K × Nat)) :
    (groupbyMaxSplitOut 4 df).length = 4 ∧
    (groupbyMaxSplitOut 4 df).flatten = groupbyMax df :=
  ⟨length_chunkInto 4 _, flatten_chunkInto 3 _⟩

/-- C4: on a dataframe with at least two partitions, row-wise positional
slicing with `iloc` fails with UnsupportedOperationError, while positional
slicing that selects columns for all rows succeeds. -/
theorem iloc_partition_contract {α : Type} (df : DaskDF (List α)) (lo hi : Nat)
    (h : 2 ≤ df.length) :
    ilocSelect df (.rowSlice lo hi) = .error .unsupportedOperationError ∧
    ∃ res, ilocSelect df (.colSlice lo hi) = .ok res := by
  refine ⟨?_, _, rfl⟩
  rw [ilocSelect, if_neg (by omega)]

/-- Witness for C4: a two-partition dataframe; `iloc[0:10]` errors and
`iloc[:, 0:1]` succeeds. -/
theorem iloc_partition_contract_witness :
    2 ≤ ([[[1, 2], [3, 4]], [[5, 6]]] : DaskDF (List Nat)).length ∧
    ilocSelect ([[[1, 2], [3, 4]], [[5, 6]]] : DaskDF (List Nat)) (.rowSlice 0 10) =
      .error .unsupportedOperationError ∧
    ∃ res, ilocSelect ([[[1, 2], [3, 4]], [[5, 6]]] : DaskDF (List Nat)) (.colSlice 0 1) =
      .ok res :=
  ⟨by decide,
   (iloc_partition_contract _ 0 10 (by decide)).1,
   (iloc_partition_contract _ 0 1 (by decide)).2⟩

/-- C2: dedup idempotence of the Task Graph Builder.  After a successful
`apply` has recorded (or found) the task of a fingerprint, a further `apply`
of any operation producing the identical fingerprint returns the same
existing handle and leaves the Graph unchanged, rather than creating a new
task. -/
theorem applyOp_dedup (b b1 : Builder) (op1 op2 : String) (ins1 ins2 : List Handle)
    (h1 : Handle)
    (happ : b.applyOp op1 ins1 = .ok (h1, b1))
    (heq : mkFingerprint op2 (ins2.map Handle.fp) = mkFingerprint op1 (ins1.map Handle.fp))
    (heps : ∀ h ∈ ins2, h.epoch = b1.epoch) :
    b1.applyOp op2 ins2 = .ok (h1, b1) := by
  have hany : ins2.any (fun h => decide (h.epoch ≠ b1.epoch)) = false := by
    simp only [List.any_eq_false, decide_eq_true_eq, not_not]
    exact heps
  rw [Builder.applyOp] at happ
  split at happ
  · exact absurd happ (by simp)
  · split at happ
    next t hfind =>
      simp only [Except.ok.injEq, Prod.mk.injEq] at happ
      obtain ⟨hh1, hb1⟩ := happ
      subst hb1
      rw [Builder.applyOp, hany, if_neg (by simp), heq, hfind]
      exact congrArg (fun h => Except.ok (h, b)) hh1
    next hfind =>
      simp only [Except.ok.injEq, Prod.mk.injEq] at happ
      obtain ⟨hh1, hb1⟩ := happ
      subst hb1
      simp only [Builder.applyOp] at hany ⊢
      rw [hany, if_neg (by simp), heq]
      rw [List.find?_cons_of_pos _ (by simp)]
      exact congrArg (fun h => Except.ok (h, _)) hh1

/-- Witness for C2: recording one "read" task, then applying the identical
operation again returns the existing handle with the Graph unchanged. -/
theorem applyOp_dedup_witness :
    (Builder.mk [] 0).applyOp "read" [] =
      .ok (⟨.atom "read", 0⟩, ⟨[⟨.atom "read", "read", []⟩], 0⟩) ∧
    (Builder.mk [⟨.atom "read", "read", []⟩] 0).applyOp "read" [] =
      .ok (⟨.atom "read", 0⟩, ⟨[⟨.atom "read", "read", []⟩], 0⟩) :=
  ⟨rfl, applyOp_dedup ⟨[], 0⟩ _ "read" "read" [] [] _ rfl rfl (by simp)⟩

/-- C7: applying an operation to a handle created before a client restart
(whose Graph epoch has expired) fails with GraphConstructionError. -/
theorem stale_handle_graph_error (b : Builder) (hdl : Handle) (op : String)
    (hh : hdl.epoch = b.epoch) :
    (b.restartClient).applyOp op [hdl] = .error .graphConstructionError := by
  rw [Builder.applyOp, if_pos]
  simp only [Builder.restartClient, List.any_cons, List.any_nil, Bool.or_false,
    decide_eq_true_eq, hh]
  omega

/-- Witness for C7: a handle from epoch 0 used after a restart errors. -/
theorem stale_handle_graph_error_witness :
    (Handle.mk (.atom "df") 0).epoch = (Builder.mk [] 0).epoch ∧
    ((Builder.mk [] 0).restartClient).applyOp "mean" [⟨.atom "df", 0⟩] =
      .error .graphConstructionError :=
  ⟨rfl, stale_handle_graph_error ⟨[], 0⟩ ⟨.atom "df", 0⟩ "mean" rfl⟩

theorem parseAll_intT_error {cs : List String} (h : ∃ c ∈ cs, isIntCell c = false) :
    parseAll .intT cs = .error .schemaInferenceError := by
  induction cs with
  | nil => simp at h
  | cons c0 rest ih =>
      rw [parseAll]
      by_cases hc : isIntCell c0 = false
      · rw [parseCell, if_neg (by simp [hc])]
      · have hc' : isIntCell c0 = true := by
          cases hh : isIntCell c0
          · exact absurd hh hc
          · rfl
        rw [parseCell, if_pos hc']
        have hrest : ∃ c ∈ rest, isIntCell c = false := by
          obtain ⟨c, hmem, hbad⟩ := h
          rcases List.mem_cons.mp hmem with rfl | hmem'
          · exact absurd hbad (by simp [hc'])
          · exact ⟨c, hmem', hbad⟩
        rw [ih hrest]

/-- C6: when the sampled prefix of a column is all-integer but the full column
is not, the integer schema is inferred and enforced, loading neither detects
nor corrects the mismatch (the raw cells are stored unchanged), and the
mismatch surfaces only when the column is computed, as a SchemaInferenceError
type error. -/
theorem schema_mismatch_surfaces_at_compute (k : Nat) (col : List String)
    (hsample : (col.take k).all isIntCell = true)
    (hbad : ∃ c ∈ col, isIntCell c = false) :
    readCsvCol k col = { colT := .intT, cells := col } ∧
    computeCol (readCsvCol k col) = .error .schemaInferenceError := by
  have hload : readCsvCol k col = { colT := .intT, cells := col } := by
    rw [readCsvCol, inferColType, if_pos hsample]
  exact ⟨hload, by rw [hload, computeCol]; exact parseAll_intT_error hbad⟩

/-- Witness for C6: a column whose first two cells are numeric but whose third
is not; with a sample of size 2 the integer type is inferred, the load stores
the raw cells unchanged, and computing the column errors. -/
theorem schema_mismatch_surfaces_at_compute_witness :
    ((["1", "2", "oops"].take 2).all isIntCell = true) ∧
    (∃ c ∈ ["1", "2", "oops"], isIntCell c = false) ∧
    readCsvCol 2 ["1", "2", "oops"] = { colT := .intT, cells := ["1", "2", "oops"] } ∧
    computeCol (readCsvCol 2 ["1", "2", "oops"]) = .error .schemaInferenceError :=
  ⟨by decide, by decide,
   (schema_mismatch_surfaces_at_compute 2 _ (by decide) (by decide)).1,
   (schema_mismatch_surfaces_at_compute 2 _ (by decide) (by decide)).2⟩

theorem runAttempts_workers (f : Nat) :
    ∀ (r w res : Nat), (runAttempts f r w res).1 = List.range' w (min f r + 1) := by
  induction f with
  | zero => intro r w res; simp [runAttempts]
  | succ g ih =>
      intro r w res
      cases r with
      | zero => simp [runAttempts]
      | succ s =>
          rw [runAttempts]
          simp only [ih s (w + 1) res]
          rw [Nat.succ_min_succ]
          conv_rhs => rw [List.range'_succ]

theorem runAttempts_outcome (f : Nat) :
    ∀ (r w res : Nat),
      (runAttempts f r w res).2 =
        if f ≤ r then .ok res else .error .workerFailureError := by
  induction f with
  | zero => intro r w res; simp [runAttempts]
  | succ g ih =>
      intro r w res
      cases r with
      | zero => simp [runAttempts]
      | succ s =>
          rw [runAttempts]
          simp only [ih s (w + 1) res]
          simp [Nat.succ_le_succ_iff]

theorem count_inputExec_in_attempts (ws : List Nat) (i : Nat) :
    (ws.map TaskExec.targetAttempt).count (TaskExec.inputExec i) = 0 := by
  rw [List.count_eq_zero]
  intro hmem
  obtain ⟨w, _, hw⟩ := List.mem_map.mp hmem
  exact TaskExec.noConfusion hw

/-- C8: a worker failure mid-task reschedules only the target task, each retry
on a different worker: the inputs' executions are the same as in a run with no
failures, and the workers tried are pairwise distinct.  Within the retry
budget the computation succeeds; once the budget is exceeded it surfaces
WorkerFailureError with no partial results. -/
theorem worker_failure_semantics (R f i : Nat) (inputVals : List Nat) :
    ((schedCompute R inputVals f).1.count (TaskExec.inputExec i)
        = (schedCompute R inputVals 0).1.count (TaskExec.inputExec i)) ∧
    ((schedCompute R inputVals f).1.filterMap workerOf).Nodup ∧
    (f ≤ R → (schedCompute R inputVals f).2 = .ok inputVals.sum) ∧
    (R < f → (schedCompute R inputVals f).2 = .error .workerFailureError) := by
  refine ⟨?_, ?_, ?_, ?_⟩
  · rw [schedCompute, schedCompute]
    simp only [List.count_append, count_inputExec_in_attempts]
  · rw [schedCompute]
    simp only [List.filterMap_append, List.filterMap_map]
    have h1 : List.filterMap (workerOf ∘ TaskExec.inputExec) (List.range inputVals.length)
        = [] := by
      rw [List.filterMap_eq_nil_iff]
      intro a _
      rfl
    have h2 : List.filterMap (workerOf ∘ TaskExec.targetAttempt)
        (runAttempts f R 0 inputVals.sum).1 = (runAttempts f R 0 inputVals.sum).1 := by
      rw [show workerOf ∘ TaskExec.targetAttempt = some from rfl, List.filterMap_some]
    rw [h1, h2, List.nil_append, runAttempts_workers]
    apply List.nodup_range'
    exact Nat.one_pos
  · intro hle
    rw [schedCompute]
    simp only [runAttempts_outcome, if_pos hle]
  · intro hgt
    rw [schedCompute]
    simp only [runAttempts_outcome]
    rw [if_neg (Nat.not_le.mpr hgt)]

/-- Witness for C8: one failure within a retry budget of 1 still succeeds with
the full result; four failures exceed the budget and error. -/
theorem worker_failure_semantics_witness :
    ((schedCompute 1 [5, 7] 1).1.count (TaskExec.inputExec 0)
        = (schedCompute 1 [5, 7] 0).1.count (TaskExec.inputExec 0)) ∧
    ((schedCompute 1 [5, 7] 1).1.filterMap workerOf).Nodup ∧
    (schedCompute 1 [5, 7] 1).2 = .ok (List.sum [5, 7]) ∧
    (schedCompute 1 [5, 7] 4).2 = .error .workerFailureError :=
  ⟨(worker_failure_semantics 1 1 0 [5, 7]).1,
   (worker_failure_semantics 1 1 0 [5, 7]).2.1,
   (worker_failure_semantics 1 1 0 [5, 7]).2.2.1 (by decide),
   (worker_failure_semantics 1 4 0 [5, 7]).2.2.2 (by decide)⟩

theorem foldl_combine_closed (l : List Moments) :
    ∀ init : Moments,
      l.foldl Moments.combine init =
        ⟨init.count + (l.map Moments.count).sum,
         init.total + (l.map Moments.total).sum,
         init.totalSq + (l.map Moments.totalSq).sum⟩ := by
  induction l with
  | nil => intro init; cases init; simp
  | cons p rest ih =>
      intro init
      rw [List.foldl_cons, ih]
      simp [Moments.combine, add_assoc]

/-- C9: the Result Aggregator's combiner is associative and commutative, so
the aggregated value does not depend on the order in which partition-local
partials are combined; the aggregate mean is the global sum over the global
count, and the aggregate variance (whose square root is the std) is computed
from the global sum, sum of squares and count. -/
theorem aggregator_order_independent :
    (∀ p q r : Moments, (p.combine q).combine r = p.combine (q.combine r)) ∧
    (∀ p q : Moments, p.combine q = q.combine p) ∧
    (∀ l1 l2 : List Moments, l1.Perm l2 → aggregateMoments l1 = aggregateMoments l2) ∧
    (∀ l : List Moments, (aggregateMoments l).meanOf
        = (l.map Moments.total).sum / (l.map Moments.count).sum) ∧
    (∀ l : List Moments, (aggregateMoments l).varOf
        = (l.map Moments.totalSq).sum / (l.map Moments.count).sum
          - ((l.map Moments.total).sum / (l.map Moments.count).sum) ^ 2) := by
  refine ⟨?_, ?_, ?_, ?_, ?_⟩
  · intro p q r
    simp [Moments.combine, add_assoc]
  · intro p q
    simp [Moments.combine, add_comm]
  · intro l1 l2 hperm
    rw [aggregateMoments, aggregateMoments, foldl_combine_closed, foldl_combine_closed]
    rw [(hperm.map Moments.count).sum_eq, (hperm.map Moments.total).sum_eq,
      (hperm.map Moments.totalSq).sum_eq]
  · intro l
    rw [aggregateMoments, foldl_combine_closed, Moments.meanOf]
    simp [Moments.zero]
  · intro l
    rw [aggregateMoments, foldl_combine_closed, Moments.varOf]
    simp [Moments.zero]

/-- Witness for C9: two partition partials combined in either order give the
same aggregate, whose mean is the global sum over the global count. -/
theorem aggregator_order_independent_witness :
    aggregateMoments [⟨1, 2, 4⟩, ⟨2, 10, 60⟩] = aggregateMoments [⟨2, 10, 60⟩, ⟨1, 2, 4⟩] ∧
    (aggregateMoments [⟨1, 2, 4⟩, ⟨2, 10, 60⟩]).meanOf =
      (([⟨1, 2, 4⟩, ⟨2, 10, 60⟩] : List Moments).map Moments.total).sum /
        (([⟨1, 2, 4⟩, ⟨2, 10, 60⟩] : List Moments).map Moments.count).sum :=
  ⟨aggregator_order_independent.2.2.1 _ _
      (List.Perm.swap (⟨2, 10, 60⟩ : Moments) (⟨1, 2, 4⟩ : Moments) []),
   aggregator_order_independent.2.2.2.1 _⟩

/-- C10: `persist` is an identity with respect to computed contents -- compute,
head and reductions return the same results on the persisted handle -- and
changes only the cluster residency of the partitions. -/
theorem persist_content_identity {α : Type} (df : PartDF α) (dfq : PartDF ℚ) (n : Nat) :
    (df.persistDf).computeDf = df.computeDf ∧
    PartDF.headDf n df.persistDf = PartDF.headDf n df ∧
    (dfq.persistDf).sumDf = dfq.sumDf ∧
    ∀ pr ∈ (df.persistDf).parts, pr.2 = MatState.residentP := by
  have key : ∀ (β : Type) (d : PartDF β), (d.persistDf).computeDf = d.computeDf := by
    intro β d
    rw [PartDF.computeDf, PartDF.computeDf, PartDF.persistDf, List.map_map]
    congr 1
  refine ⟨key α df, ?_, ?_, ?_⟩
  · rw [PartDF.headDf, PartDF.headDf, key]
  · rw [PartDF.sumDf, PartDF.sumDf, key]
  · intro pr hpr
    rw [PartDF.persistDf] at hpr
    obtain ⟨q, _, rfl⟩ := List.mem_map.mp hpr
    rfl

/-- Witness for C10: a concrete one-partition handle computes to the same
rows after persist, and its persisted partition is resident. -/
theorem persist_content_identity_witness :
    (PartDF.persistDf (⟨[([1, 2], MatState.lazyP)]⟩ : PartDF Nat)).computeDf =
      (⟨[([1, 2], MatState.lazyP)]⟩ : PartDF Nat).computeDf ∧
    (([1, 2], MatState.residentP) : List Nat × MatState).2 = MatState.residentP :=
  ⟨(persist_content_identity ⟨[([1, 2], MatState.lazyP)]⟩ ⟨[]⟩ 0).1,
   (persist_content_identity (⟨[([1, 2], MatState.lazyP)]⟩ : PartDF Nat) ⟨[]⟩ 0).2.2.2
     _ (by decide)⟩

/-- Witness for C5: a concrete two-partition keyed dataset aggregates into
exactly 4 output partitions concatenating to the single-partition result. -/
theorem groupby_splitOut_partitions_witness :
    (groupbyMaxSplitOut 4 ([[("a", 3), ("b", 5)], [("a", 7)]] : DaskDF (String × Nat))).length
        = 4 ∧
    (groupbyMaxSplitOut 4 ([[("a", 3), ("b", 5)], [("a", 7)]] : DaskDF (String × Nat))).flatten
        = groupbyMax ([[("a", 3), ("b", 5)], [("a", 7)]] : DaskDF (String × Nat)) :=
  groupby_splitOut_partitions _

end DaskSpec
